import Mathlib

/-!
Verification development for ShuffleScreen (src/ShuffleScreen.py).

The Python program keeps a pool of VLC players, one per on-screen video slot,
in a set of parallel lists on the `VideoPlayer` object:
`self.instances`, `self.players`, `self.video_frames`, the mute checkboxes,
`self.last_played`, plus the scalar `self.num_videos` and the catalog
`self.video_files`.  The definitions below embed that state and the
orchestration methods (`play_random_video`, `play_random_videos`,
`change_num_videos`, `toggle_individual_mute`, `play_pause`, `play_next`,
`stop`, `update_ui`, `load_videos`) as pure functions on an explicit state.

Modelling conventions:
* paths are an arbitrary type `α` with decidable equality;
* `random.choice(seq)` is modelled as `seq[r % seq.length]` for an
  arbitrary supplied natural `r`; operations that make several random
  choices take a stream `rnd : Nat → Nat`, one entry per call site, so every
  combination of concrete choices is realised by some stream;
* VLC engine calls are modelled by their observable effect on the slot:
  `play()` on a player with media makes it `playing`, `stop()` makes it
  `stopped`, `pause()` toggles playing/paused (libVLC pause is a toggle);
* fallible media opening (`media_new`/`set_media`/`play` raising inside the
  `try` of `play_random_video`) is modelled by a predicate `bad : α → Bool`;
  on a bad file the player is left unchanged and the per-slot error report
  (the critical message box) is appended to an `errors` log;
* VLC instances and video frames (surfaces) are identified by ids drawn from
  a fresh-id counter `nextId`, so replacement and binding identity are
  observable;
* `releasedOrder` is an event trace recording, in processing order, the slot
  index of every player released by the shrink branch of
  `change_num_videos`.
-/

set_option linter.unusedSectionVars false
set_option linter.unusedVariables false

namespace ShuffleScreen

/-- VLC media player states as returned by `player.get_state()`
(`vlc.State`: NothingSpecial, Opening, Buffering, Playing, Paused,
Stopped, Ended, Error). -/
inductive VlcState where
  | nothingSpecial
  | opening
  | buffering
  | playing
  | paused
  | stopped
  | ended
  | error
deriving DecidableEq

/-- One VLC instance (`vlc.Instance(vlc_args)`).  `silent` records whether it
was created with `--aout=dummy` (the muted-audio routing of
`toggle_individual_mute`). -/
structure EngineInstance where
  id : Nat
  silent : Bool
deriving DecidableEq

/-- One `media_player` object, restricted to the observables the
orchestration code reads and writes: current media, playback position
(`get_position`/`set_position`, an abstract nonnegative unit), state,
mute flag and volume (`audio_set_mute` / `audio_set_volume`), whether the
MediaPlayerPlaying event handler is attached, and the surface id passed to
`set_video_output`. -/
structure Player (α : Type) where
  media : Option α
  position : Int
  state : VlcState
  muted : Bool
  volume : Nat
  eventArmed : Bool
  boundSurface : Option Nat
deriving DecidableEq

/-- A freshly created media player (`instance.media_player_new()` followed by
`set_video_output` onto the given surface). -/
def Player.new (α : Type) (surface : Option Nat) : Player α :=
  { media := none, position := 0, state := .nothingSpecial, muted := false,
    volume := 100, eventArmed := false, boundSurface := surface }

/-- The mutable state of the `VideoPlayer` object that the orchestration
methods read and write. -/
structure PoolState (α : Type) where
  instances : List EngineInstance
  players : List (Player α)
  videoFrames : List Nat
  mutedCheckbox : List Bool
  numVideos : Nat
  videoFiles : List α
  lastPlayed : List (Option α)
  volumeSlider : Nat
  errors : List (Nat × α)
  warnings : Nat
  releasedOrder : List Nat
  nextId : Nat
deriving DecidableEq

variable {α : Type} [DecidableEq α]

/-- The selection step at the head of `play_random_video`:
`choices = [v for v in video_files if v not in last_played]`,
`if not choices: choices = video_files.copy()`,
`random.choice(choices)`.  Returns `none` exactly when `random.choice`
would raise (empty catalog). -/
def chooseNext (catalog : List α) (excluded : List (Option α)) (r : Nat) :
    Option α :=
  let choices := catalog.filter (fun v => decide (some v ∉ excluded))
  let pool := if choices.isEmpty then catalog else choices
  pool[r % pool.length]?

/-- `play_random_video(i)`: choose the next file, record it in
`last_played[i]`, then (inside a `try`) set the media on player `i`, attach
the MediaPlayerPlaying handler, start playback, and apply the slot's mute
checkbox / the volume slider.  A failure inside the `try` (a `bad` file)
leaves the player untouched and reports a per-slot error. -/
def playRandomVideo (bad : α → Bool) (r : Nat) (s : PoolState α) (i : Nat) :
    PoolState α :=
  match chooseNext s.videoFiles s.lastPlayed r with
  | none => s
  | some v =>
    let s1 := { s with lastPlayed := s.lastPlayed.set i (some v) }
    if bad v then
      { s1 with errors := s1.errors ++ [(i, v)] }
    else
      match s1.players[i]? with
      | none => s1
      | some p =>
        let p1 := { p with media := some v, eventArmed := true,
                           state := VlcState.playing }
        let p2 :=
          if s1.mutedCheckbox.getD i false then { p1 with muted := true }
          else { p1 with muted := false, volume := s1.volumeSlider }
        { s1 with players := s1.players.set i p2 }

/-- `play_random_videos()`: bail out on an empty catalog, reset
`last_played = [None] * num_videos`, then run `play_random_video(i)` for
every player index in order. -/
def playRandomVideos (bad : α → Bool) (rnd : Nat → Nat) (s : PoolState α) :
    PoolState α :=
  if s.videoFiles.isEmpty then s
  else
    let s1 := { s with lastPlayed := List.replicate s.numVideos none }
    (List.range s1.players.length).foldl
      (fun acc i => playRandomVideo bad (rnd i) acc i) s1

/-- The body of the grow loop of `change_num_videos` before the optional
`play_random_video(i)`: create a fresh instance and player, bind the player
to a freshly created video frame, append the parallel-list entries
(instance, player, frame, unchecked mute checkbox, `last_played.append(None)`). -/
def addSlot (s : PoolState α) : PoolState α :=
  { s with
    instances := s.instances ++ [⟨s.nextId, false⟩],
    players := s.players ++ [Player.new α (some (s.nextId + 1))],
    videoFrames := s.videoFrames ++ [s.nextId + 1],
    mutedCheckbox := s.mutedCheckbox ++ [false],
    lastPlayed := s.lastPlayed ++ [none],
    nextId := s.nextId + 2 }

/-- One iteration of the grow loop of `change_num_videos`: add the slot, then
`if self.video_files: self.play_random_video(i)`. -/
def upStep (bad : α → Bool) (rnd : Nat → Nat) (acc : PoolState α) (i : Nat) :
    PoolState α :=
  let acc1 := addSlot acc
  if acc1.videoFiles.isEmpty then acc1 else playRandomVideo bad (rnd i) acc1 i

/-- One iteration of the shrink loop of `change_num_videos`: stop and release
player `i`, release instance `i`, unparent frame `i`, delete checkbox `i`,
`del self.last_played[i]`.  The released slot index is recorded in the
`releasedOrder` trace. -/
def removeSlot (s : PoolState α) (i : Nat) : PoolState α :=
  { s with
    players := s.players.eraseIdx i,
    instances := s.instances.eraseIdx i,
    videoFrames := s.videoFrames.eraseIdx i,
    mutedCheckbox := s.mutedCheckbox.eraseIdx i,
    lastPlayed := s.lastPlayed.eraseIdx i,
    releasedOrder := s.releasedOrder ++ [i] }

/-- `change_num_videos(value)`: record the new count, then either grow with
fresh slots (indices `old .. value-1`, in order) or shrink by releasing
trailing slots (indices `old-1` down to `value`, in that order). -/
def changeNumVideos (bad : α → Bool) (rnd : Nat → Nat) (value : Nat)
    (s : PoolState α) : PoolState α :=
  let old := s.players.length
  let s1 := { s with numVideos := value }
  if old < value then
    (List.range' old (value - old)).foldl (upStep bad rnd) s1
  else if value < old then
    ((List.range' value (old - value)).reverse).foldl removeSlot s1
  else s1

/-- `toggle_individual_mute(index, state)`: the checkbox now holds the new
state; the handler captures the current media and position from player
`index`, stops and releases it, creates a replacement instance (with
`--aout=dummy` iff muted) and player, rebinds the player to the slot's
existing video frame, reloads the captured media and resumes (restoring the
position when it was `> 0`), and re-attaches the MediaPlayerPlaying
handler. -/
def toggleIndividualMute (i : Nat) (checked : Bool) (s : PoolState α) :
    PoolState α :=
  let s1 := { s with mutedCheckbox := s.mutedCheckbox.set i checked }
  match s1.players[i]? with
  | none => s1
  | some p =>
    let currentMedia := p.media
    let currentPosition := p.position
    let newInst : EngineInstance := ⟨s1.nextId, checked⟩
    let base : Player α := Player.new α s1.videoFrames[i]?
    let np :=
      match currentMedia with
      | some m =>
        let np0 := { base with media := some m, state := VlcState.playing }
        if currentPosition > 0 then { np0 with position := currentPosition }
        else np0
      | none => base
    let np1 := { np with eventArmed := true }
    { s1 with
      instances := s1.instances.set i newInst,
      players := s1.players.set i np1,
      nextId := s1.nextId + 1 }

/-- `player.is_playing()`. -/
def Player.isPlaying (p : Player α) : Bool :=
  p.state == VlcState.playing

/-- `player.play()`: starts playback when media is set, otherwise a no-op. -/
def Player.playCmd (p : Player α) : Player α :=
  if p.media.isSome then { p with state := .playing } else p

/-- `player.pause()`: libVLC pause toggles between playing and paused. -/
def Player.pauseCmd (p : Player α) : Player α :=
  if p.state == VlcState.playing then { p with state := .paused }
  else if p.state == VlcState.paused then { p with state := .playing }
  else p

/-- The terminal-state test of `play_pause`:
`player.get_state() in [vlc.State.Ended, vlc.State.NothingSpecial,
vlc.State.Stopped]`. -/
def terminalState (p : Player α) : Bool :=
  p.state == VlcState.ended || p.state == VlcState.nothingSpecial ||
    p.state == VlcState.stopped

/-- `play_pause()`: if any player is playing, pause all; otherwise, if every
player is in a terminal state, play a fresh random set, else resume every
player. -/
def playPause (bad : α → Bool) (rnd : Nat → Nat) (s : PoolState α) :
    PoolState α :=
  if s.players.any Player.isPlaying then
    { s with players := s.players.map Player.pauseCmd }
  else if s.players.all terminalState then
    playRandomVideos bad rnd s
  else
    { s with players := s.players.map Player.playCmd }

/-- `play_next()`: plays the next set of random videos. -/
def playNext (bad : α → Bool) (rnd : Nat → Nat) (s : PoolState α) :
    PoolState α :=
  playRandomVideos bad rnd s

/-- `stop()`: stops every currently playing player. -/
def stopAll (s : PoolState α) : PoolState α :=
  { s with players := s.players.map (fun p =>
      if p.isPlaying then { p with state := .stopped } else p) }

/-- `set_volume(value)`: applies the volume to every player whose mute
checkbox exists and is unchecked, and records the slider value. -/
def setVolumeAll (value : Nat) (s : PoolState α) : PoolState α :=
  { s with
    volumeSlider := value,
    players := s.players.enum.map (fun iv =>
      match s.mutedCheckbox[iv.1]? with
      | some false => { iv.2 with volume := value }
      | _ => iv.2) }

/-- One iteration of the `update_ui` poller loop for slot `i`: on Ended play
a new random video in that slot; on Error show a warning and run the manual
`play_next()` path (a full `play_random_videos()`); otherwise do nothing.
`rnd i` is the random stream available to the actions fired at slot `i`. -/
def tickStep (bad : α → Bool) (rnd : Nat → Nat → Nat) (acc : PoolState α)
    (i : Nat) : PoolState α :=
  match acc.players[i]? with
  | none => acc
  | some p =>
    match p.state with
    | .ended => playRandomVideo bad (rnd i 0) acc i
    | .error => playRandomVideos bad (rnd i) { acc with warnings := acc.warnings + 1 }
    | _ => acc

/-- `update_ui()`: one poller tick, iterating over every player index. -/
def updateUi (bad : α → Bool) (rnd : Nat → Nat → Nat) (s : PoolState α) :
    PoolState α :=
  (List.range s.players.length).foldl (tickStep bad rnd) s

/-- `load_videos(folder)` after the directory walk produced `files`: install
the catalog and, when it is non-empty, start playback via
`play_random_videos()`. -/
def loadVideos (bad : α → Bool) (rnd : Nat → Nat) (files : List α)
    (s : PoolState α) : PoolState α :=
  let s1 := { s with videoFiles := files }
  if files.isEmpty then s1 else playRandomVideos bad rnd s1

/-- The state built by `__init__` / `init_ui` / `init_players`: one instance,
one player bound to one frame, one unchecked checkbox, `num_videos = 1`,
empty catalog, and — notably — `last_played = []` (no entry for the initial
slot). -/
def initState (α : Type) : PoolState α :=
  { instances := [⟨0, false⟩],
    players := [Player.new α (some 1)],
    videoFrames := [1],
    mutedCheckbox := [false],
    numVideos := 1,
    videoFiles := [],
    lastPlayed := [],
    volumeSlider := 50,
    errors := [],
    warnings := 0,
    releasedOrder := [],
    nextId := 2 }

/-- The pool operations a user or the poller can fire. -/
inductive Op (α : Type) where
  | load (files : List α) (rnd : Nat → Nat)
  | resize (value : Nat) (rnd : Nat → Nat)
  | next (rnd : Nat → Nat)
  | playpause (rnd : Nat → Nat)
  | tick (rnd : Nat → Nat → Nat)
  | mute (i : Nat) (b : Bool)
  | stopOp
  | setVol (v : Nat)

/-- Apply one operation. -/
def applyOp (bad : α → Bool) (op : Op α) (s : PoolState α) : PoolState α :=
  match op with
  | .load files rnd => loadVideos bad rnd files s
  | .resize value rnd => changeNumVideos bad rnd value s
  | .next rnd => playNext bad rnd s
  | .playpause rnd => playPause bad rnd s
  | .tick rnd => updateUi bad rnd s
  | .mute i b => toggleIndividualMute i b s
  | .stopOp => stopAll s
  | .setVol v => setVolumeAll v s

/-- States reachable from the freshly constructed application. -/
inductive Reachable (bad : α → Bool) : PoolState α → Prop where
  | init : Reachable bad (initState α)
  | step (s : PoolState α) (op : Op α) :
      Reachable bad s → Reachable bad (applyOp bad op s)

/-! ### Concrete sample states used by witnesses and counterexamples -/

/-- A paused player holding file `0` at position `3`. -/
def pausedPlayer : Player Nat :=
  { media := some 0, position := 3, state := .paused,
    muted := false, volume := 50, eventArmed := true,
    boundSurface := some 1 }

/-- A one-slot pool with one paused player holding file `0`, catalog
`[0, 1]`. -/
def pausedSample : PoolState Nat :=
  { instances := [⟨0, false⟩],
    players := [pausedPlayer],
    videoFrames := [1],
    mutedCheckbox := [false],
    numVideos := 1,
    videoFiles := [0, 1],
    lastPlayed := [some 0],
    volumeSlider := 50,
    errors := [],
    warnings := 0,
    releasedOrder := [],
    nextId := 2 }

/-- A two-slot pool with both slots playing, catalog `[0, 1]`. -/
def twoSlotSample : PoolState Nat :=
  { instances := [⟨0, false⟩, ⟨2, false⟩],
    players := [{ media := some 0, position := 1, state := .playing,
                  muted := false, volume := 50, eventArmed := true,
                  boundSurface := some 1 },
                { media := some 1, position := 2, state := .playing,
                  muted := false, volume := 50, eventArmed := true,
                  boundSurface := some 3 }],
    videoFrames := [1, 3],
    mutedCheckbox := [false, false],
    numVideos := 2,
    videoFiles := [0, 1],
    lastPlayed := [some 0, some 1],
    volumeSlider := 50,
    errors := [],
    warnings := 0,
    releasedOrder := [],
    nextId := 4 }

/-- A one-slot pool whose catalog holds the single file `7`, with no
assignment recorded yet. -/
def failSample : PoolState Nat :=
  { instances := [⟨0, false⟩],
    players := [Player.new Nat (some 1)],
    videoFrames := [1],
    mutedCheckbox := [false],
    numVideos := 1,
    videoFiles := [7],
    lastPlayed := [none],
    volumeSlider := 50,
    errors := [],
    warnings := 0,
    releasedOrder := [],
    nextId := 2 }

/-- A two-slot pool where slot 0 is playing file `0` and slot 1 is in the
VLC Error state; catalog `[0, 1]`. -/
def errSample : PoolState Nat :=
  { instances := [⟨0, false⟩, ⟨2, false⟩],
    players := [{ media := some 0, position := 1, state := .playing,
                  muted := false, volume := 50, eventArmed := true,
                  boundSurface := some 1 },
                { media := some 1, position := 1, state := .error,
                  muted := false, volume := 50, eventArmed := true,
                  boundSurface := some 3 }],
    videoFrames := [1, 3],
    mutedCheckbox := [false, false],
    numVideos := 2,
    videoFiles := [0, 1],
    lastPlayed := [some 0, some 1],
    volumeSlider := 50,
    errors := [],
    warnings := 0,
    releasedOrder := [],
    nextId := 4 }

/-! ### Generally useful lemmas about the embedded operations -/

theorem Player.playCmd_media (p : Player α) : (Player.playCmd p).media = p.media := by
  unfold Player.playCmd; split <;> rfl

/-!
### C1
-/

/-- C1: `chooseNext` (the selection step of `play_random_video`) never
returns a member of the excluded list when the catalog minus the excluded
list is non-empty, and whenever the catalog is non-empty it returns some
member of the catalog (falling back to the full catalog when every file is
excluded). -/
theorem c1_chooseNext_spec (catalog : List α) (excluded : List (Option α))
    (r : Nat) (hcat : catalog ≠ []) :
    ∃ v, chooseNext catalog excluded r = some v ∧ v ∈ catalog ∧
      (catalog.filter (fun x => decide (some x ∉ excluded)) ≠ [] →
        some v ∉ excluded) := by
  have key : ∀ pool : List α, pool ≠ [] →
      ∃ v, pool[r % pool.length]? = some v ∧ v ∈ pool := by
    intro pool hne
    have hlen : 0 < pool.length := List.length_pos.mpr hne
    have hr : r % pool.length < pool.length := Nat.mod_lt _ hlen
    exact ⟨pool[r % pool.length], List.getElem?_eq_getElem hr,
           List.getElem_mem hr⟩
  simp only [chooseNext]
  by_cases h : (catalog.filter (fun x => decide (some x ∉ excluded))).isEmpty = true
  · rw [if_pos h]
    obtain ⟨v, hv, hmem⟩ := key catalog hcat
    exact ⟨v, hv, hmem, fun hne => absurd (List.isEmpty_iff.mp h) hne⟩
  · rw [if_neg h]
    have hne : catalog.filter (fun x => decide (some x ∉ excluded)) ≠ [] := by
      intro hnil
      exact h (List.isEmpty_iff.mpr hnil)
    obtain ⟨v, hv, hmem⟩ := key _ hne
    rw [List.mem_filter] at hmem
    exact ⟨v, hv, hmem.1, fun _ => of_decide_eq_true hmem.2⟩

/-- Witness for C1 at catalog `[0, 1]`, excluded `[some 0]`, `r = 0`. -/
theorem c1_chooseNext_spec_witness :
    ([0, 1] : List Nat) ≠ [] ∧
    ∃ v, chooseNext [0, 1] [some 0] 0 = some v ∧ v ∈ ([0, 1] : List Nat) ∧
      (([0, 1] : List Nat).filter
          (fun x => decide (some x ∉ ([some 0] : List (Option Nat)))) ≠ [] →
        some v ∉ ([some 0] : List (Option Nat))) :=
  ⟨by decide, c1_chooseNext_spec [0, 1] [some 0] 0 (by decide)⟩

/-!
### C4
-/

/-- C4: `play_pause` invoked when no player is playing performs a full
reshuffle (`play_random_videos`) exactly when every player is in a terminal
state (Ended / NothingSpecial / Stopped); otherwise it resumes playback
without changing any assignment (last-played entries and each player's
media are unchanged). -/
theorem c4_playAll_reshuffle_iff_terminal (bad : α → Bool) (rnd : Nat → Nat)
    (s : PoolState α) (hnone : s.players.any Player.isPlaying = false) :
    (s.players.all terminalState = true →
      playPause bad rnd s = playRandomVideos bad rnd s) ∧
    (s.players.all terminalState = false →
      (playPause bad rnd s).lastPlayed = s.lastPlayed ∧
      (playPause bad rnd s).players.map Player.media =
        s.players.map Player.media) := by
  constructor
  · intro hall
    simp [playPause, hnone, hall]
  · intro hall
    simp only [playPause, hnone, hall, Bool.false_eq_true, if_false]
    refine ⟨trivial, ?_⟩
    simp only [List.map_map]
    exact List.map_congr_left fun p _ => Player.playCmd_media p

/-- Witness for C4 on a pool with one paused player: no reshuffle, media and
assignments unchanged. -/
theorem c4_playAll_reshuffle_iff_terminal_witness :
    pausedSample.players.any Player.isPlaying = false ∧
    pausedSample.players.all terminalState = false ∧
    (playPause (fun _ => false) (fun _ => 0) pausedSample).lastPlayed =
      pausedSample.lastPlayed ∧
    (playPause (fun _ => false) (fun _ => 0) pausedSample).players.map
        Player.media = pausedSample.players.map Player.media := by
  refine ⟨by decide, by decide, ?_, ?_⟩
  · exact ((c4_playAll_reshuffle_iff_terminal (fun _ => false) (fun _ => 0)
      pausedSample (by decide)).2 (by decide)).1
  · exact ((c4_playAll_reshuffle_iff_terminal (fun _ => false) (fun _ => 0)
      pausedSample (by decide)).2 (by decide)).2

/-!
### The effect of one `toggle_individual_mute` call
-/

/-- Characterisation of one `toggle_individual_mute` call on a slot whose
player exists: the checkbox is updated, the instance at `i` is replaced by a
fresh one routed according to `checked`, the player at `i` is replaced by a
fresh player rebound to the slot's frame carrying over media and (positive)
position, and the fresh-id counter advances. -/
theorem toggleIndividualMute_eq (s : PoolState α) (i : Nat) (b : Bool)
    (p : Player α) (hp : s.players[i]? = some p) :
    toggleIndividualMute i b s = { s with
      mutedCheckbox := s.mutedCheckbox.set i b,
      instances := s.instances.set i ⟨s.nextId, b⟩,
      players := s.players.set i (match p.media with
        | some m =>
          { media := some m,
            position := if p.position > 0 then p.position else 0,
            state := .playing, muted := false, volume := 100,
            eventArmed := true, boundSurface := s.videoFrames[i]? }
        | none =>
          { media := none, position := 0, state := .nothingSpecial,
            muted := false, volume := 100, eventArmed := true,
            boundSurface := s.videoFrames[i]? }),
      nextId := s.nextId + 1 } := by
  simp only [toggleIndividualMute, hp]
  cases hm : p.media with
  | none => simp [Player.new]
  | some m =>
    by_cases hpos : p.position > 0 <;> simp [Player.new, hpos]

/-!
### C3
-/

/-- C3: a full individual-mute cycle (`toggle_individual_mute(i, checked)`
with checked then unchecked) on a slot with a loaded file and a known
(nonnegative) position leaves the slot playing the same file at the same
position, rebound to the same surface, while the engine instance is torn
down and replaced on each of the two toggles. -/
theorem c3_muteCycle_preserves (s : PoolState α) (i : Nat) (p : Player α)
    (f : α) (hp : s.players[i]? = some p) (hm : p.media = some f)
    (hpos : 0 ≤ p.position) (hi : i < s.instances.length)
    (hfresh : ∀ t ∈ s.instances, t.id < s.nextId) :
    ∃ q, (toggleIndividualMute i false
            (toggleIndividualMute i true s)).players[i]? = some q ∧
      q.media = some f ∧ q.position = p.position ∧
      q.state = VlcState.playing ∧ q.boundSurface = s.videoFrames[i]? ∧
      (toggleIndividualMute i true s).instances[i]? ≠ s.instances[i]? ∧
      (toggleIndividualMute i false
        (toggleIndividualMute i true s)).instances[i]? ≠
        (toggleIndividualMute i true s).instances[i]? ∧
      (toggleIndividualMute i false
        (toggleIndividualMute i true s)).videoFrames = s.videoFrames := by
  have hip : i < s.players.length := by
    obtain ⟨h, -⟩ := List.getElem?_eq_some.mp hp
    exact h
  have h1 := toggleIndividualMute_eq s i true p hp
  set q1 : Player α :=
    { media := some f, position := if p.position > 0 then p.position else 0,
      state := .playing, muted := false, volume := 100,
      eventArmed := true, boundSurface := s.videoFrames[i]? } with hq1
  have hps1 : (toggleIndividualMute i true s).players[i]? = some q1 := by
    rw [h1, hm]
    exact List.getElem?_set_self (by simpa using hip)
  have h2 := toggleIndividualMute_eq (toggleIndividualMute i true s) i false
    q1 hps1
  have hframes1 : (toggleIndividualMute i true s).videoFrames =
      s.videoFrames := by rw [h1]
  have hnid1 : (toggleIndividualMute i true s).nextId = s.nextId + 1 := by
    rw [h1]
  have hinst1 : (toggleIndividualMute i true s).instances =
      s.instances.set i ⟨s.nextId, true⟩ := by rw [h1]
  refine ⟨{ media := some f,
            position := if q1.position > 0 then q1.position else 0,
            state := .playing, muted := false, volume := 100,
            eventArmed := true,
            boundSurface := (toggleIndividualMute i true s).videoFrames[i]? },
          ?_, rfl, ?_, rfl, ?_, ?_, ?_, ?_⟩
  · rw [h2]
    simp only [hq1]
    exact List.getElem?_set_self (by simp [h1, hip])
  · simp only [hq1]
    by_cases hc : p.position > 0
    · simp [hc]
    · have : p.position = 0 := by omega
      simp [this]
  · rw [hframes1]
  · obtain ⟨t, hts⟩ : ∃ t, s.instances[i]? = some t :=
      ⟨s.instances[i], List.getElem?_eq_getElem hi⟩
    have htid : t.id < s.nextId := hfresh t (List.getElem?_mem hts)
    rw [hinst1, List.getElem?_set_self hi, hts]
    intro hcon
    injection hcon with hcon2
    have hid : s.nextId = t.id := congrArg EngineInstance.id hcon2
    omega
  · rw [h2, hinst1, hnid1]
    have hlen : i < (s.instances.set i ⟨s.nextId, true⟩).length := by
      simpa using hi
    rw [List.getElem?_set_self hlen, List.getElem?_set_self hi]
    intro hcon
    injection hcon with hcon2
    have hid : s.nextId + 1 = s.nextId := congrArg EngineInstance.id hcon2
    omega
  · rw [h2, hframes1]

/-!
### C10
-/

/-- C10: toggling individual mute on a slot with no media loaded does not
start playback and does not seek: the engine instance is still replaced
(with routing per the new checkbox state), the fresh player is rebound to
the slot's same frame with the playing-event handler re-armed, but it has no
media, is in the idle state, and sits at position 0; last-played entries are
untouched. -/
theorem c10_muteToggle_noMedia (s : PoolState α) (i : Nat) (b : Bool)
    (p : Player α) (hp : s.players[i]? = some p) (hm : p.media = none)
    (hi : i < s.instances.length) :
    ∃ q, (toggleIndividualMute i b s).players[i]? = some q ∧
      q.media = none ∧ q.state = VlcState.nothingSpecial ∧ q.position = 0 ∧
      q.eventArmed = true ∧ q.boundSurface = s.videoFrames[i]? ∧
      (toggleIndividualMute i b s).instances[i]? =
        some ⟨s.nextId, b⟩ ∧
      (toggleIndividualMute i b s).videoFrames = s.videoFrames ∧
      (toggleIndividualMute i b s).lastPlayed = s.lastPlayed := by
  have hip : i < s.players.length := by
    obtain ⟨h, -⟩ := List.getElem?_eq_some.mp hp
    exact h
  have h1 := toggleIndividualMute_eq s i b p hp
  refine ⟨{ media := none, position := 0, state := .nothingSpecial,
            muted := false, volume := 100, eventArmed := true,
            boundSurface := s.videoFrames[i]? },
          ?_, rfl, rfl, rfl, rfl, rfl, ?_, ?_, ?_⟩
  · rw [h1, hm]
    exact List.getElem?_set_self (by simpa using hip)
  · rw [h1]
    exact List.getElem?_set_self hi
  · rw [h1]
  · rw [h1]

/-- Witness for C3 on a one-slot pool whose player holds file `0` at
position `3`. -/
theorem c3_muteCycle_preserves_witness :
    ∃ q, (toggleIndividualMute 0 false
            (toggleIndividualMute 0 true pausedSample)).players[0]? = some q ∧
      q.media = some 0 ∧ q.position = pausedPlayer.position ∧
      q.state = VlcState.playing ∧
      q.boundSurface = pausedSample.videoFrames[0]? ∧
      (toggleIndividualMute 0 true pausedSample).instances[0]? ≠
        pausedSample.instances[0]? ∧
      (toggleIndividualMute 0 false
        (toggleIndividualMute 0 true pausedSample)).instances[0]? ≠
        (toggleIndividualMute 0 true pausedSample).instances[0]? ∧
      (toggleIndividualMute 0 false
        (toggleIndividualMute 0 true pausedSample)).videoFrames =
        pausedSample.videoFrames :=
  c3_muteCycle_preserves pausedSample 0 pausedPlayer 0 (by decide) (by decide)
    (by decide) (by decide) (by decide)

/-- Witness for C10 on the freshly initialised pool, whose single player has
no media. -/
theorem c10_muteToggle_noMedia_witness :
    ∃ q, (toggleIndividualMute 0 true (initState Nat)).players[0]? = some q ∧
      q.media = none ∧ q.state = VlcState.nothingSpecial ∧ q.position = 0 ∧
      q.eventArmed = true ∧
      q.boundSurface = (initState Nat).videoFrames[0]? ∧
      (toggleIndividualMute 0 true (initState Nat)).instances[0]? =
        some ⟨(initState Nat).nextId, true⟩ ∧
      (toggleIndividualMute 0 true (initState Nat)).videoFrames =
        (initState Nat).videoFrames ∧
      (toggleIndividualMute 0 true (initState Nat)).lastPlayed =
        (initState Nat).lastPlayed :=
  c10_muteToggle_noMedia (initState Nat) 0 true (Player.new Nat (some 1))
    (by decide) (by decide) (by decide)

/-!
### Effect lemmas for `play_random_video` and the resize loops
-/

theorem eraseIdx_last {β : Type} (l : List β) (n : Nat) (h : l.length = n + 1) :
    l.eraseIdx n = l.take n := by
  rw [List.eraseIdx_eq_take_drop_succ]
  rw [List.drop_eq_nil_of_le (by omega), List.append_nil]

/-- `play_random_video` touches only `lastPlayed`, `players` and `errors`,
and preserves the lengths of `lastPlayed` and `players`. -/
theorem playRandomVideo_unchanged (bad : α → Bool) (r : Nat)
    (s : PoolState α) (i : Nat) :
    (playRandomVideo bad r s i).videoFrames = s.videoFrames ∧
    (playRandomVideo bad r s i).instances = s.instances ∧
    (playRandomVideo bad r s i).mutedCheckbox = s.mutedCheckbox ∧
    (playRandomVideo bad r s i).numVideos = s.numVideos ∧
    (playRandomVideo bad r s i).videoFiles = s.videoFiles ∧
    (playRandomVideo bad r s i).nextId = s.nextId ∧
    (playRandomVideo bad r s i).releasedOrder = s.releasedOrder ∧
    (playRandomVideo bad r s i).players.length = s.players.length ∧
    (playRandomVideo bad r s i).lastPlayed.length = s.lastPlayed.length := by
  unfold playRandomVideo
  cases chooseNext s.videoFiles s.lastPlayed r with
  | none => exact ⟨rfl, rfl, rfl, rfl, rfl, rfl, rfl, rfl, rfl⟩
  | some v =>
    dsimp only
    by_cases hb : bad v = true
    · simp [hb]
    · simp only [hb, Bool.false_eq_true, if_false]
      cases hp : s.players[i]? with
      | none => simp
      | some p => simp

/-- Folding `play_random_video` over any index list touches only
`lastPlayed`, `players` and `errors`, preserving both lengths. -/
theorem foldPlay_unchanged (bad : α → Bool) (rnd : Nat → Nat) (l : List Nat)
    (s : PoolState α) :
    ((l.foldl (fun acc i => playRandomVideo bad (rnd i) acc i) s).videoFrames
        = s.videoFrames) ∧
    ((l.foldl (fun acc i => playRandomVideo bad (rnd i) acc i) s).instances
        = s.instances) ∧
    ((l.foldl (fun acc i => playRandomVideo bad (rnd i) acc i) s).mutedCheckbox
        = s.mutedCheckbox) ∧
    ((l.foldl (fun acc i => playRandomVideo bad (rnd i) acc i) s).numVideos
        = s.numVideos) ∧
    ((l.foldl (fun acc i => playRandomVideo bad (rnd i) acc i) s).videoFiles
        = s.videoFiles) ∧
    ((l.foldl (fun acc i => playRandomVideo bad (rnd i) acc i) s).players.length
        = s.players.length) ∧
    ((l.foldl (fun acc i => playRandomVideo bad (rnd i) acc i) s).lastPlayed.length
        = s.lastPlayed.length) := by
  induction l generalizing s with
  | nil => exact ⟨rfl, rfl, rfl, rfl, rfl, rfl, rfl⟩
  | cons x xs ih =>
    rw [List.foldl_cons]
    obtain ⟨f1, i1, c1, n1, v1, p1, l1⟩ :=
      ih (playRandomVideo bad (rnd x) s x)
    obtain ⟨f0, i0, c0, n0, v0, -, -, p0, l0⟩ :=
      playRandomVideo_unchanged bad (rnd x) s x
    exact ⟨f1.trans f0, i1.trans i0, c1.trans c0, n1.trans n0, v1.trans v0,
           p1.trans p0, l1.trans l0⟩

/-- `play_random_videos` touches only `lastPlayed`, `players` and `errors`;
it preserves the player count, and when the catalog is non-empty it leaves
`lastPlayed` with exactly `numVideos` entries. -/
theorem playRandomVideos_unchanged (bad : α → Bool) (rnd : Nat → Nat)
    (s : PoolState α) :
    (playRandomVideos bad rnd s).videoFrames = s.videoFrames ∧
    (playRandomVideos bad rnd s).instances = s.instances ∧
    (playRandomVideos bad rnd s).mutedCheckbox = s.mutedCheckbox ∧
    (playRandomVideos bad rnd s).numVideos = s.numVideos ∧
    (playRandomVideos bad rnd s).videoFiles = s.videoFiles ∧
    (playRandomVideos bad rnd s).players.length = s.players.length ∧
    (s.videoFiles.isEmpty = false →
      (playRandomVideos bad rnd s).lastPlayed.length = s.numVideos) := by
  unfold playRandomVideos
  by_cases he : s.videoFiles.isEmpty = true
  · simp [he]
  · have he' : s.videoFiles.isEmpty = false := by
      cases h : s.videoFiles.isEmpty
      · rfl
      · exact absurd h he
    simp only [he', Bool.false_eq_true, if_false]
    obtain ⟨f1, i1, c1, n1, v1, p1, l1⟩ := foldPlay_unchanged bad rnd
      (List.range (({ s with
        lastPlayed := List.replicate s.numVideos none } : PoolState α)).players.length)
      ({ s with lastPlayed := List.replicate s.numVideos none } : PoolState α)
    refine ⟨f1, i1, c1, n1, v1, p1, fun _ => ?_⟩
    rw [l1]
    exact List.length_replicate _ _

/-- One shrink-loop pass over indices `value + j - 1` down to `value`
removes exactly the trailing entries of each parallel list and records the
released indices in processing order. -/
theorem removeLoop_take (value : Nat) :
    ∀ (j : Nat) (s : PoolState α),
    s.players.length = value + j → s.instances.length = value + j →
    s.videoFrames.length = value + j → s.mutedCheckbox.length = value + j →
    s.lastPlayed.length = value + j →
    ((List.range' value j).reverse).foldl removeSlot s = { s with
      players := s.players.take value,
      instances := s.instances.take value,
      videoFrames := s.videoFrames.take value,
      mutedCheckbox := s.mutedCheckbox.take value,
      lastPlayed := s.lastPlayed.take value,
      releasedOrder := s.releasedOrder ++ (List.range' value j).reverse } := by
  intro j
  induction j with
  | zero =>
    intro s h1 h2 h3 h4 h5
    simp only [List.range'_zero, List.reverse_nil, List.foldl_nil,
      List.append_nil]
    rw [List.take_of_length_le (by omega), List.take_of_length_le (by omega),
        List.take_of_length_le (by omega), List.take_of_length_le (by omega),
        List.take_of_length_le (by omega)]
  | succ j ih =>
    intro s h1 h2 h3 h4 h5
    rw [List.range'_1_concat, List.reverse_append, List.reverse_singleton,
        List.singleton_append, List.foldl_cons]
    have hrs : removeSlot s (value + j) = { s with
        players := s.players.take (value + j),
        instances := s.instances.take (value + j),
        videoFrames := s.videoFrames.take (value + j),
        mutedCheckbox := s.mutedCheckbox.take (value + j),
        lastPlayed := s.lastPlayed.take (value + j),
        releasedOrder := s.releasedOrder ++ [value + j] } := by
      unfold removeSlot
      rw [eraseIdx_last s.players (value + j) (by omega),
          eraseIdx_last s.instances (value + j) (by omega),
          eraseIdx_last s.videoFrames (value + j) (by omega),
          eraseIdx_last s.mutedCheckbox (value + j) (by omega),
          eraseIdx_last s.lastPlayed (value + j) (by omega)]
    rw [hrs]
    rw [ih _ (by simp [List.length_take]; omega)
          (by simp [List.length_take]; omega)
          (by simp [List.length_take]; omega)
          (by simp [List.length_take]; omega)
          (by simp [List.length_take]; omega)]
    simp only [List.take_take]
    congr 1
    · rw [Nat.min_def]; simp [Nat.le_add_right]
    · rw [Nat.min_def]; simp [Nat.le_add_right]
    · rw [Nat.min_def]; simp [Nat.le_add_right]
    · rw [Nat.min_def]; simp [Nat.le_add_right]
    · rw [Nat.min_def]; simp [Nat.le_add_right]
    · rw [List.append_assoc, List.singleton_append]

/-- The shrink branch of `change_num_videos`, characterised on a
well-formed state (all parallel lists of the same length `c`). -/
theorem resize_down_eq (bad : α → Bool) (rnd : Nat → Nat) (value c : Nat)
    (s : PoolState α) (hlt : value < c)
    (h1 : s.players.length = c) (h2 : s.instances.length = c)
    (h3 : s.videoFrames.length = c) (h4 : s.mutedCheckbox.length = c)
    (h5 : s.lastPlayed.length = c) :
    changeNumVideos bad rnd value s = { s with
      numVideos := value,
      players := s.players.take value,
      instances := s.instances.take value,
      videoFrames := s.videoFrames.take value,
      mutedCheckbox := s.mutedCheckbox.take value,
      lastPlayed := s.lastPlayed.take value,
      releasedOrder := s.releasedOrder ++
        (List.range' value (c - value)).reverse } := by
  unfold changeNumVideos
  rw [h1, if_neg (by omega), if_pos (by omega)]
  exact removeLoop_take value (c - value)
    ({ s with numVideos := value } : PoolState α)
    (by simpa using by omega : _ = value + (c - value)) (by simp; omega)
    (by simp; omega) (by simp; omega) (by simp; omega)

/-- The no-op branch of `change_num_videos` (`value == current`). -/
theorem changeNumVideos_eq_self (bad : α → Bool) (rnd : Nat → Nat)
    (value : Nat) (s : PoolState α) (hv : s.players.length = value) :
    changeNumVideos bad rnd value s = { s with numVideos := value } := by
  unfold changeNumVideos
  rw [hv, if_neg (by omega), if_neg (by omega)]

/-- One iteration of the grow loop: exactly one fresh frame, one player, one
instance, one checkbox and one last-played entry are appended; catalog and
count fields are untouched. -/
theorem upStep_shape (bad : α → Bool) (rnd : Nat → Nat) (s : PoolState α)
    (x : Nat) :
    (upStep bad rnd s x).videoFrames = s.videoFrames ++ [s.nextId + 1] ∧
    (upStep bad rnd s x).players.length = s.players.length + 1 ∧
    (upStep bad rnd s x).instances.length = s.instances.length + 1 ∧
    (upStep bad rnd s x).mutedCheckbox.length = s.mutedCheckbox.length + 1 ∧
    (upStep bad rnd s x).lastPlayed.length = s.lastPlayed.length + 1 ∧
    (upStep bad rnd s x).numVideos = s.numVideos ∧
    (upStep bad rnd s x).videoFiles = s.videoFiles := by
  unfold upStep
  by_cases he : (addSlot s).videoFiles.isEmpty = true
  · simp only [he, if_true]
    unfold addSlot
    simp
  · simp only [he, Bool.false_eq_true, if_false]
    obtain ⟨f0, i0, c0, n0, v0, -, -, p0, l0⟩ :=
      playRandomVideo_unchanged bad (rnd x) (addSlot s) x
    refine ⟨f0.trans ?_, p0.trans ?_, i0 ▸ ?_, c0 ▸ ?_, l0.trans ?_,
            n0.trans ?_, v0.trans ?_⟩ <;> (unfold addSlot; simp)

/-- The full grow loop appends `l.length` fresh frames and grows every
parallel list by `l.length`. -/
theorem upFold_shape (bad : α → Bool) (rnd : Nat → Nat) :
    ∀ (l : List Nat) (s : PoolState α),
    ∃ tf : List Nat,
      (l.foldl (upStep bad rnd) s).videoFrames = s.videoFrames ++ tf ∧
      tf.length = l.length ∧
      (l.foldl (upStep bad rnd) s).players.length =
        s.players.length + l.length ∧
      (l.foldl (upStep bad rnd) s).instances.length =
        s.instances.length + l.length ∧
      (l.foldl (upStep bad rnd) s).mutedCheckbox.length =
        s.mutedCheckbox.length + l.length ∧
      (l.foldl (upStep bad rnd) s).lastPlayed.length =
        s.lastPlayed.length + l.length ∧
      (l.foldl (upStep bad rnd) s).numVideos = s.numVideos ∧
      (l.foldl (upStep bad rnd) s).videoFiles = s.videoFiles := by
  intro l
  induction l with
  | nil =>
    intro s
    exact ⟨[], by simp, rfl, rfl, rfl, rfl, rfl, rfl, rfl⟩
  | cons x xs ih =>
    intro s
    rw [List.foldl_cons]
    obtain ⟨tf, hf, hflen, hp, hi2, hc, hl, hn, hv⟩ := ih (upStep bad rnd s x)
    obtain ⟨f0, p0, i0, c0, l0, n0, v0⟩ := upStep_shape bad rnd s x
    refine ⟨[s.nextId + 1] ++ tf, ?_, ?_, ?_, ?_, ?_, ?_, n0 ▸ hn, v0 ▸ hv⟩
    · rw [hf, f0, List.append_assoc]
    · simp [hflen]
    · rw [hp, p0]; simp [Nat.add_assoc, Nat.add_comm 1 xs.length]
    · rw [hi2, i0]; simp [Nat.add_assoc, Nat.add_comm 1 xs.length]
    · rw [hc, c0]; simp [Nat.add_assoc, Nat.add_comm 1 xs.length]
    · rw [hl, l0]; simp [Nat.add_assoc, Nat.add_comm 1 xs.length]

/-- The grow branch of `change_num_videos`. -/
theorem resize_up_shape (bad : α → Bool) (rnd : Nat → Nat) (value : Nat)
    (s : PoolState α) (hlt : s.players.length < value) :
    ∃ tf : List Nat,
      (changeNumVideos bad rnd value s).videoFrames = s.videoFrames ++ tf ∧
      tf.length = value - s.players.length ∧
      (changeNumVideos bad rnd value s).players.length = value ∧
      (changeNumVideos bad rnd value s).instances.length =
        s.instances.length + (value - s.players.length) ∧
      (changeNumVideos bad rnd value s).mutedCheckbox.length =
        s.mutedCheckbox.length + (value - s.players.length) ∧
      (changeNumVideos bad rnd value s).lastPlayed.length =
        s.lastPlayed.length + (value - s.players.length) ∧
      (changeNumVideos bad rnd value s).numVideos = value ∧
      (changeNumVideos bad rnd value s).videoFiles = s.videoFiles := by
  unfold changeNumVideos
  rw [if_pos (by omega)]
  obtain ⟨tf, hf, hflen, hp, hi2, hc, hl, hn, hv⟩ := upFold_shape bad rnd
    (List.range' s.players.length (value - s.players.length))
    ({ s with numVideos := value } : PoolState α)
  rw [List.length_range'] at hp hi2 hc hl hflen
  refine ⟨tf, by simpa using hf, hflen, ?_, by simpa using hi2,
          by simpa using hc, by simpa using hl, by simpa using hn,
          by simpa using hv⟩
  simp only at hp
  omega

/-!
### C6
-/

/-- C6: resizing down from `c` slots to `value < c` releases exactly the
trailing slots `value .. c-1` in reverse-index order (witnessed by the
release trace), drops exactly their checkbox and last-played entries,
leaves `value` slots, and leaves the surviving prefix — players, engine
instances and frames — untouched. -/
theorem c6_resize_down_releases_trailing (bad : α → Bool) (rnd : Nat → Nat)
    (value c : Nat) (s : PoolState α) (hlt : value < c)
    (h1 : s.players.length = c) (h2 : s.instances.length = c)
    (h3 : s.videoFrames.length = c) (h4 : s.mutedCheckbox.length = c)
    (h5 : s.lastPlayed.length = c) :
    changeNumVideos bad rnd value s = { s with
      numVideos := value,
      players := s.players.take value,
      instances := s.instances.take value,
      videoFrames := s.videoFrames.take value,
      mutedCheckbox := s.mutedCheckbox.take value,
      lastPlayed := s.lastPlayed.take value,
      releasedOrder := s.releasedOrder ++
        (List.range' value (c - value)).reverse } ∧
    (changeNumVideos bad rnd value s).players.length = value ∧
    (∀ j, j < value →
      (changeNumVideos bad rnd value s).players[j]? = s.players[j]? ∧
      (changeNumVideos bad rnd value s).instances[j]? = s.instances[j]? ∧
      (changeNumVideos bad rnd value s).videoFrames[j]? = s.videoFrames[j]?) := by
  have hmain := resize_down_eq bad rnd value c s hlt h1 h2 h3 h4 h5
  refine ⟨hmain, ?_, ?_⟩
  · rw [hmain]
    simp [List.length_take]
    omega
  · intro j hj
    rw [hmain]
    simp only [List.getElem?_take]
    rw [if_pos hj, if_pos hj, if_pos hj]
    exact ⟨rfl, rfl, rfl⟩

/-- Witness for C6: resizing the two-slot sample down to one slot. -/
theorem c6_resize_down_releases_trailing_witness :
    changeNumVideos (fun _ => false) (fun _ => 0) 1 twoSlotSample =
      { twoSlotSample with
        numVideos := 1,
        players := twoSlotSample.players.take 1,
        instances := twoSlotSample.instances.take 1,
        videoFrames := twoSlotSample.videoFrames.take 1,
        mutedCheckbox := twoSlotSample.mutedCheckbox.take 1,
        lastPlayed := twoSlotSample.lastPlayed.take 1,
        releasedOrder := twoSlotSample.releasedOrder ++
          (List.range' 1 (2 - 1)).reverse } ∧
    (changeNumVideos (fun _ => false) (fun _ => 0) 1 twoSlotSample).players.length = 1 ∧
    (∀ j, j < 1 →
      (changeNumVideos (fun _ => false) (fun _ => 0) 1 twoSlotSample).players[j]? =
        twoSlotSample.players[j]? ∧
      (changeNumVideos (fun _ => false) (fun _ => 0) 1 twoSlotSample).instances[j]? =
        twoSlotSample.instances[j]? ∧
      (changeNumVideos (fun _ => false) (fun _ => 0) 1 twoSlotSample).videoFrames[j]? =
        twoSlotSample.videoFrames[j]?) :=
  c6_resize_down_releases_trailing (fun _ => false) (fun _ => 0) 1 2
    twoSlotSample (by decide) (by decide) (by decide) (by decide) (by decide)
    (by decide)

/-!
### C7
-/

/-- C7: for pool sizes `n, m` in `1..9`, resizing a well-formed `n`-slot
pool to `m` and back to `n` yields exactly `n` slots and `n` frames, and
every slot index that survived both resizes keeps its original frame
(surface binding identity). -/
theorem c7_resize_roundtrip (bad : α → Bool) (rnd1 rnd2 : Nat → Nat)
    (s : PoolState α) (n m : Nat) (hn1 : 1 ≤ n) (hn9 : n ≤ 9)
    (hm1 : 1 ≤ m) (hm9 : m ≤ 9)
    (h1 : s.players.length = n) (h2 : s.instances.length = n)
    (h3 : s.videoFrames.length = n) (h4 : s.mutedCheckbox.length = n)
    (h5 : s.lastPlayed.length = n) :
    (changeNumVideos bad rnd2 n (changeNumVideos bad rnd1 m s)).players.length
      = n ∧
    (changeNumVideos bad rnd2 n
      (changeNumVideos bad rnd1 m s)).videoFrames.length = n ∧
    ∀ j, j < min n m →
      (changeNumVideos bad rnd2 n (changeNumVideos bad rnd1 m s)).videoFrames[j]?
        = s.videoFrames[j]? := by
  rcases Nat.lt_trichotomy n m with hcase | hcase | hcase
  · -- grow to m, then shrink back to n
    obtain ⟨tf, hf, hflen, hp, hi2, hc, hl, hn', hv⟩ :=
      resize_up_shape bad rnd1 m s (by omega)
    set su := changeNumVideos bad rnd1 m s with hsu
    have hfu : su.videoFrames.length = m := by
      rw [hf]; simp [hflen]; omega
    have hmain := resize_down_eq bad rnd2 n m su (by omega)
      (by omega) (by omega) hfu (by omega) (by omega)
    have hframes : (changeNumVideos bad rnd2 n su).videoFrames =
        s.videoFrames := by
      rw [hmain]
      simp only
      rw [hf]
      have : n = s.videoFrames.length + 0 := by omega
      rw [this, List.take_append]
      simp
    refine ⟨?_, ?_, ?_⟩
    · rw [hmain]; simp [List.length_take]; omega
    · rw [hframes, h3]
    · intro j hj
      rw [hframes]
  · -- same size twice: both resizes are count-only updates
    have hA := changeNumVideos_eq_self bad rnd1 m s (by omega)
    have hB := changeNumVideos_eq_self bad rnd2 n
      ({ s with numVideos := m } : PoolState α) (by simp [h1, hcase])
    rw [hA, hB]
    exact ⟨by simp [h1], by simp [h3], fun j hj => rfl⟩
  · -- shrink to m, then grow back to n
    have hmain := resize_down_eq bad rnd1 m n s (by omega) h1 h2 h3 h4 h5
    set sd := changeNumVideos bad rnd1 m s with hsd
    have hd1 : sd.players.length = m := by
      rw [hmain]; simp [List.length_take]; omega
    obtain ⟨tf, hf, hflen, hp, hi2, hc, hl, hn', hv⟩ :=
      resize_up_shape bad rnd2 n sd (by omega)
    refine ⟨by rw [hp], ?_, ?_⟩
    · rw [hf, hmain]
      simp only [List.length_append, List.length_take]
      rw [hflen, hd1]
      simp [h3]
      omega
    · intro j hj
      have hjm : j < m := by omega
      rw [hf, hmain]
      simp only
      rw [List.getElem?_append, if_pos (by simp [List.length_take]; omega),
          List.getElem?_take, if_pos hjm]

/-- Witness for C7: the one-slot paused sample resized to 2 and back to 1
keeps its frame. -/
theorem c7_resize_roundtrip_witness :
    (changeNumVideos (fun _ => false) (fun _ => 1) 1
      (changeNumVideos (fun _ => false) (fun _ => 0) 2 pausedSample)).players.length = 1 ∧
    (changeNumVideos (fun _ => false) (fun _ => 1) 1
      (changeNumVideos (fun _ => false) (fun _ => 0) 2 pausedSample)).videoFrames.length = 1 ∧
    ∀ j, j < min 1 2 →
      (changeNumVideos (fun _ => false) (fun _ => 1) 1
        (changeNumVideos (fun _ => false) (fun _ => 0) 2 pausedSample)).videoFrames[j]? =
        pausedSample.videoFrames[j]? :=
  c7_resize_roundtrip (fun _ => false) (fun _ => 0) (fun _ => 1) pausedSample
    1 2 (by decide) (by decide) (by decide) (by decide) (by decide)
    (by decide) (by decide) (by decide) (by decide)

/-!
### C5
-/

/-- C5 counterexample: on a pool whose only catalog file `7` fails to open,
`play_random_video` reports the per-slot error and leaves the player
untouched, but the slot's recorded assignment is updated to the failed file
(`last_played[0]` goes from `none` to `some 7`), contradicting the claim
that it is left at its previous (or no) value. -/
theorem c5_counterexample_assignment_recorded :
    failSample.lastPlayed = [none] ∧
    (playRandomVideo (fun v => v == 7) 0 failSample 0).lastPlayed =
      [some 7] ∧
    (playRandomVideo (fun v => v == 7) 0 failSample 0).errors = [(0, 7)] ∧
    (playRandomVideo (fun v => v == 7) 0 failSample 0).players =
      failSample.players := by
  decide

/-- C5 amended: when the chosen file fails to open, the failure is reported
for that slot only and the players are untouched (so the assignment loop
over the remaining slots continues unaffected — the exception is caught
inside `play_random_video`), but the failing slot's recorded assignment IS
updated: `last_played[i]` is set to the file that failed to open, before
the open is attempted. -/
theorem c5_amended_openFail_records_choice (bad : α → Bool) (r : Nat)
    (s : PoolState α) (i : Nat) (v : α)
    (hc : chooseNext s.videoFiles s.lastPlayed r = some v)
    (hbad : bad v = true) :
    playRandomVideo bad r s i = { s with
      lastPlayed := s.lastPlayed.set i (some v),
      errors := s.errors ++ [(i, v)] } := by
  unfold playRandomVideo
  rw [hc]
  simp [hbad]

/-- Witness for the amended C5 on the concrete failing pool. -/
theorem c5_amended_openFail_records_choice_witness :
    playRandomVideo (fun v => v == 7) 0 failSample 0 = { failSample with
      lastPlayed := failSample.lastPlayed.set 0 (some 7),
      errors := failSample.errors ++ [(0, 7)] } :=
  c5_amended_openFail_records_choice (fun v => v == 7) 0 failSample 0 7
    (by decide) (by decide)

/-!
### Poller-tick lemmas
-/

/-- A slot observed playing stays playing across `play_random_video`: the
touched slot is restarted as playing and the other slots are untouched. -/
theorem playRandomVideo_keeps_playing (bad : α → Bool) (r : Nat)
    (s : PoolState α) (i j : Nat)
    (h : (s.players[j]?).map Player.state = some VlcState.playing) :
    ((playRandomVideo bad r s i).players[j]?).map Player.state =
      some VlcState.playing := by
  unfold playRandomVideo
  cases chooseNext s.videoFiles s.lastPlayed r with
  | none => exact h
  | some v =>
    dsimp only
    by_cases hb : bad v = true
    · simpa [hb] using h
    · simp only [hb, Bool.false_eq_true, if_false]
      cases hp : s.players[i]? with
      | none => simpa using h
      | some p =>
        dsimp only
        by_cases hij : i = j
        · subst hij
          obtain ⟨hilen, -⟩ := List.getElem?_eq_some.mp hp
          simp only [List.getElem?_set_self hilen, Option.map_some']
          split <;> rfl
        · simpa [List.getElem?_set_ne hij] using h

/-- A slot observed playing stays playing across `play_random_videos`. -/
theorem playRandomVideos_keeps_playing (bad : α → Bool) (rnd : Nat → Nat)
    (s : PoolState α) (j : Nat)
    (h : (s.players[j]?).map Player.state = some VlcState.playing) :
    ((playRandomVideos bad rnd s).players[j]?).map Player.state =
      some VlcState.playing := by
  unfold playRandomVideos
  by_cases he : s.videoFiles.isEmpty = true
  · simpa [he] using h
  · simp only [he, Bool.false_eq_true, if_false]
    have key : ∀ (l : List Nat) (t : PoolState α),
        (t.players[j]?).map Player.state = some VlcState.playing →
        (((l.foldl (fun acc i => playRandomVideo bad (rnd i) acc i)
            t).players[j]?).map Player.state = some VlcState.playing) := by
      intro l
      induction l with
      | nil => intro t ht; exact ht
      | cons x xs ih =>
        intro t ht
        rw [List.foldl_cons]
        exact ih _ (playRandomVideo_keeps_playing bad (rnd x) t x j ht)
    exact key _ _ (by simpa using h)

/-- The poller takes no action on a slot observed playing. -/
theorem tickStep_noop (bad : α → Bool) (rnd : Nat → Nat → Nat)
    (acc : PoolState α) (j : Nat)
    (h : (acc.players[j]?).map Player.state = some VlcState.playing) :
    tickStep bad rnd acc j = acc := by
  unfold tickStep
  cases hp : acc.players[j]? with
  | none => rfl
  | some p =>
    have hst : p.state = VlcState.playing := by
      rw [hp] at h
      simpa using h
    dsimp only
    rw [hst]

/-- A poller pass over slots it takes no action on is the identity. -/
theorem foldTick_noop (bad : α → Bool) (rnd : Nat → Nat → Nat)
    (l : List Nat) (s : PoolState α)
    (h : ∀ j ∈ l, tickStep bad rnd s j = s) :
    l.foldl (tickStep bad rnd) s = s := by
  induction l with
  | nil => rfl
  | cons x xs ih =>
    rw [List.foldl_cons, h x (List.mem_cons_self x xs)]
    exact ih fun j hj => h j (List.mem_cons_of_mem x hj)

/-!
### C2
-/

/-- C2 counterexample: with slot 1 the only slot in the Error state (slot 0
playing file 0), one `update_ui` poller tick changes slot 0's recorded
assignment as well, refuting the claim that the assignments of slots other
than the erroring one are unchanged by the error-handling path. -/
theorem c2_counterexample_error_reassigns_other_slots :
    (errSample.players[1]?).map Player.state = some VlcState.error ∧
    (errSample.players[0]?).map Player.state = some VlcState.playing ∧
    errSample.lastPlayed[0]? = some (some 0) ∧
    (updateUi (fun _ => false) (fun _ _ => 1) errSample).lastPlayed[0]? =
      some (some 1) := by
  decide

/-- C2 amended: when the poller tick observes exactly one slot `i` in the
Error state (every other slot playing), the recovery path it triggers is
`play_next`, i.e. a full `play_random_videos` pass: after surfacing the
warning, EVERY slot — not only slot `i` — is given a fresh random
assignment. -/
theorem c2_amended_error_triggers_full_reshuffle (bad : α → Bool)
    (rnd : Nat → Nat → Nat) (s : PoolState α) (i : Nat)
    (herr : (s.players[i]?).map Player.state = some VlcState.error)
    (hothers : ∀ j, j < s.players.length → j ≠ i →
      (s.players[j]?).map Player.state = some VlcState.playing) :
    updateUi bad rnd s =
      playRandomVideos bad (rnd i)
        ({ s with warnings := s.warnings + 1 } : PoolState α) := by
  obtain ⟨p, hp⟩ : ∃ p, s.players[i]? = some p := by
    cases hp : s.players[i]? with
    | none => rw [hp] at herr; simp at herr
    | some p => exact ⟨p, rfl⟩
  have hpstate : p.state = VlcState.error := by
    rw [hp] at herr
    simpa using herr
  obtain ⟨hik, -⟩ := List.getElem?_eq_some.mp hp
  unfold updateUi
  have hsplit : List.range' 0 i ++ List.range' i (s.players.length - i) =
      List.range' 0 s.players.length := by
    have h := List.range'_append 0 i (s.players.length - i) 1
    simp only [Nat.zero_add, Nat.one_mul] at h
    rw [h]
    congr 1
    omega
  rw [List.range_eq_range', ← hsplit, List.foldl_append]
  have hpartA : (List.range' 0 i).foldl (tickStep bad rnd) s = s := by
    apply foldTick_noop
    intro j hj
    rw [List.mem_range'_1] at hj
    exact tickStep_noop bad rnd s j
      (hothers j (by omega) (by omega))
  rw [hpartA]
  have hsucc : s.players.length - i = (s.players.length - i - 1) + 1 := by
    omega
  rw [hsucc, List.range'_succ, List.foldl_cons]
  have hstep : tickStep bad rnd s i =
      playRandomVideos bad (rnd i)
        ({ s with warnings := s.warnings + 1 } : PoolState α) := by
    unfold tickStep
    rw [hp]
    dsimp only
    rw [hpstate]
  rw [hstep]
  apply foldTick_noop
  intro j hj
  rw [List.mem_range'_1] at hj
  apply tickStep_noop
  apply playRandomVideos_keeps_playing
  have : (s.players[j]?).map Player.state = some VlcState.playing := by
    have hjlen : j < s.players.length := by omega
    exact hothers j hjlen (by omega)
  simpa using this

/-- Witness for the amended C2 on the concrete two-slot error pool. -/
theorem c2_amended_error_triggers_full_reshuffle_witness :
    updateUi (fun _ => false) (fun _ _ => 1) errSample =
      playRandomVideos (fun _ => false) ((fun _ _ => (1 : Nat)) 1)
        ({ errSample with warnings := errSample.warnings + 1 } : PoolState Nat) :=
  c2_amended_error_triggers_full_reshuffle (fun _ => false) (fun _ _ => 1)
    errSample 1 (by decide)
    (by
      intro j hj hne
      have hj2 : j < 2 := hj
      interval_cases j
      · decide
      · exact absurd rfl hne)

/-!
### Selection lemmas for the reshuffle pass
-/

/-- When some catalog file is not excluded, `chooseNext` picks a
non-excluded catalog file. -/
theorem chooseNext_of_filter_ne (catalog : List α)
    (excluded : List (Option α)) (r : Nat)
    (hne : catalog.filter (fun v => decide (some v ∉ excluded)) ≠ []) :
    ∃ v, chooseNext catalog excluded r = some v ∧ v ∈ catalog ∧
      some v ∉ excluded := by
  simp only [chooseNext]
  rw [if_neg (fun h => hne (List.isEmpty_iff.mp h))]
  have hlen : 0 < (catalog.filter (fun v => decide (some v ∉ excluded))).length :=
    List.length_pos.mpr hne
  have hr := Nat.mod_lt r hlen
  have hmem := List.getElem_mem hr
  rw [List.mem_filter] at hmem
  exact ⟨_, List.getElem?_eq_getElem hr, hmem.1, of_decide_eq_true hmem.2⟩

/-- On a one-file catalog `chooseNext` always yields that file (the
fallback branch covers the case where it is excluded). -/
theorem chooseNext_single (a : α) (lp : List (Option α)) (r : Nat) :
    chooseNext [a] lp r = some a := by
  simp only [chooseNext]
  by_cases h : (([a] : List α).filter (fun v => decide (some v ∉ lp))).isEmpty = true
  · rw [if_pos h]
    simp [Nat.mod_one]
  · rw [if_neg h]
    have hf : ([a] : List α).filter (fun v => decide (some v ∉ lp)) = [a] := by
      rcases Decidable.em (some a ∈ lp) with hmem | hmem
      · exfalso
        apply h
        simp [List.filter_singleton, hmem]
      · simp [List.filter_singleton, hmem]
    rw [hf]
    simp [Nat.mod_one]

/-- Whatever happens after the choice (open failure or not, player present
or not), `play_random_video` records the chosen file at index `i`. -/
theorem playRandomVideo_lastPlayed (bad : α → Bool) (r : Nat)
    (s : PoolState α) (i : Nat) (v : α)
    (hc : chooseNext s.videoFiles s.lastPlayed r = some v) :
    (playRandomVideo bad r s i).lastPlayed = s.lastPlayed.set i (some v) := by
  unfold playRandomVideo
  rw [hc]
  dsimp only
  by_cases hb : bad v = true
  · simp [hb]
  · simp only [hb, Bool.false_eq_true, if_false]
    cases hp : s.players[i]? <;> simp

/-- Membership in a prefix of assigned files padded with `None` entries. -/
theorem filter_excluded_done (catalog done : List α) (c : Nat) :
    catalog.filter (fun v => decide (some v ∉
        done.map some ++ List.replicate c (none : Option α))) =
      catalog.filter (fun v => decide (v ∉ done)) := by
  apply List.filter_congr
  intro x hx
  simp [List.mem_replicate]

/-- A nodup catalog longer than the list of already-assigned files always
has an unassigned file left. -/
theorem exists_fresh (catalog done : List α) (hnodup : catalog.Nodup)
    (hlt : done.length < catalog.length) :
    catalog.filter (fun v => decide (v ∉ done)) ≠ [] := by
  intro hnil
  rw [List.filter_eq_nil_iff] at hnil
  have hsub : catalog.toFinset ⊆ done.toFinset := by
    intro x hx
    rw [List.mem_toFinset] at hx ⊢
    have := hnil x hx
    simpa using this
  have h1 : catalog.toFinset.card = catalog.length :=
    List.toFinset_card_of_nodup hnodup
  have h2 : done.toFinset.card ≤ done.length := List.toFinset_card_le done
  have h3 := Finset.card_le_card hsub
  omega

/-- Setting the entry right after the assigned prefix. -/
theorem set_after_done (done : List α) (c : Nat) (v : α) :
    (done.map some ++ List.replicate (c + 1) (none : Option α)).set
        done.length (some v) =
      (done ++ [v]).map some ++ List.replicate c none := by
  rw [List.set_append, if_neg (by simp)]
  simp [List.replicate_succ]

/-- Invariant of the `play_random_videos` assignment loop on a nodup
catalog at least as large as the pool: after processing slots
`j .. j+c-1` starting from `j` distinct assigned files, all `j+c` slots
hold distinct catalog files. -/
theorem playFold_distinct (bad : α → Bool) (rnd : Nat → Nat) (k : Nat) :
    ∀ (c j : Nat) (s : PoolState α) (done : List α),
    j + c = k → done.length = j → done.Nodup →
    (∀ x ∈ done, x ∈ s.videoFiles) →
    s.videoFiles.Nodup → k ≤ s.videoFiles.length →
    s.lastPlayed = done.map some ++ List.replicate c none →
    ∃ done2 : List α,
      ((List.range' j c).foldl
        (fun acc i => playRandomVideo bad (rnd i) acc i) s).lastPlayed =
          done2.map some ∧
      done2.length = k ∧ done2.Nodup ∧ ∀ x ∈ done2, x ∈ s.videoFiles := by
  intro c
  induction c with
  | zero =>
    intro j s done hjk hdl hdn hdsub hcn hkle hlp
    refine ⟨done, ?_, by omega, hdn, hdsub⟩
    simpa using hlp
  | succ c ih =>
    intro j s done hjk hdl hdn hdsub hcn hkle hlp
    rw [List.range'_succ, List.foldl_cons]
    have hfilter : s.videoFiles.filter
        (fun x => decide (some x ∉ s.lastPlayed)) =
        s.videoFiles.filter (fun x => decide (x ∉ done)) := by
      rw [hlp]
      exact filter_excluded_done s.videoFiles done (c + 1)
    have hne : s.videoFiles.filter (fun x => decide (x ∉ done)) ≠ [] :=
      exists_fresh s.videoFiles done hcn (by omega)
    obtain ⟨v, hcv, hvcat, hvnot'⟩ :=
      chooseNext_of_filter_ne s.videoFiles s.lastPlayed (rnd j)
        (by rw [hfilter]; exact hne)
    have hvnot : v ∉ done := by
      intro hv
      exact hvnot' (by rw [hlp]; simp [hv])
    have hlp2 : (playRandomVideo bad (rnd j) s j).lastPlayed =
        (done ++ [v]).map some ++ List.replicate c none := by
      rw [playRandomVideo_lastPlayed bad (rnd j) s j v hcv, hlp, ← hdl]
      exact set_after_done done c v
    obtain ⟨-, -, -, -, hvf, -, -, -, -⟩ :=
      playRandomVideo_unchanged bad (rnd j) s j
    obtain ⟨done2, h1, h2, h3, h4⟩ := ih (j + 1)
      (playRandomVideo bad (rnd j) s j) (done ++ [v]) (by omega)
      (by simp [hdl])
      (by
        rw [List.nodup_append]
        exact ⟨hdn, List.nodup_singleton v,
          fun x hx hxa => hvnot ((List.mem_singleton.mp hxa) ▸ hx)⟩)
      (by
        intro x hx
        rw [hvf]
        rcases List.mem_append.mp hx with hx | hx
        · exact hdsub x hx
        · rw [List.mem_singleton.mp hx]; exact hvcat)
      (by rw [hvf]; exact hcn) (by rw [hvf]; exact hkle) hlp2
    refine ⟨done2, h1, h2, h3, ?_⟩
    intro x hx
    have := h4 x hx
    rwa [hvf] at this

/-- Invariant of the assignment loop on a one-file catalog: every processed
slot is assigned that file via the fallback branch. -/
theorem playFold_single (bad : α → Bool) (rnd : Nat → Nat) (a : α) :
    ∀ (c j : Nat) (s : PoolState α),
    s.videoFiles = [a] →
    s.lastPlayed = List.replicate j (some a) ++ List.replicate c none →
    ((List.range' j c).foldl
      (fun acc i => playRandomVideo bad (rnd i) acc i) s).lastPlayed =
        List.replicate (j + c) (some a) := by
  intro c
  induction c with
  | zero =>
    intro j s hvf hlp
    simpa using hlp
  | succ c ih =>
    intro j s hvf hlp
    rw [List.range'_succ, List.foldl_cons]
    have hcv : chooseNext s.videoFiles s.lastPlayed (rnd j) = some a := by
      rw [hvf]
      exact chooseNext_single a s.lastPlayed (rnd j)
    have hlp2 : (playRandomVideo bad (rnd j) s j).lastPlayed =
        List.replicate (j + 1) (some a) ++ List.replicate c none := by
      rw [playRandomVideo_lastPlayed bad (rnd j) s j a hcv, hlp]
      have hset := set_after_done (List.replicate j a) c a
      rw [List.map_replicate, List.length_replicate, ← List.replicate_succ',
          List.map_replicate] at hset
      exact hset
    obtain ⟨-, -, -, -, hvf2, -, -, -, -⟩ :=
      playRandomVideo_unchanged bad (rnd j) s j
    have := ih (j + 1) (playRandomVideo bad (rnd j) s j)
      (by rw [hvf2]; exact hvf) hlp2
    rw [this]
    congr 1
    omega

/-!
### C8
-/

/-- C8: after `play_random_videos` over a pool of `k = numVideos` slots
(with `k` players) and a duplicate-free catalog of at least `k` files, the
`k` assigned files are pairwise distinct catalog members; when the catalog
has exactly `k` files the assigned set is the whole catalog; and on a
one-file catalog every slot is assigned that file via the fallback branch,
with no failure. -/
theorem c8_reshuffle_distinct (bad : α → Bool) (rnd : Nat → Nat)
    (s : PoolState α) :
    (s.players.length = s.numVideos → s.videoFiles.Nodup →
      s.numVideos ≤ s.videoFiles.length → s.videoFiles ≠ [] →
      ∃ done : List α,
        (playRandomVideos bad rnd s).lastPlayed = done.map some ∧
        done.length = s.numVideos ∧ done.Nodup ∧
        (∀ x ∈ done, x ∈ s.videoFiles) ∧
        (s.videoFiles.length = s.numVideos →
          ∀ x ∈ s.videoFiles, x ∈ done)) ∧
    (∀ a : α, s.videoFiles = [a] → s.players.length = s.numVideos →
      (playRandomVideos bad rnd s).lastPlayed =
        List.replicate s.numVideos (some a)) := by
  constructor
  · intro hpl hnodup hle hnonempty
    unfold playRandomVideos
    rw [if_neg (fun h => hnonempty (List.isEmpty_iff.mp h))]
    dsimp only
    obtain ⟨done2, h1, h2, h3, h4⟩ := playFold_distinct bad rnd s.numVideos
      s.numVideos 0
      ({ s with lastPlayed := List.replicate s.numVideos none } : PoolState α)
      [] (by omega) rfl List.nodup_nil (by simp) hnodup hle (by simp)
    rw [hpl, List.range_eq_range']
    refine ⟨done2, h1, h2, h3, h4, ?_⟩
    intro hlen x hx
    have hsub : done2.toFinset ⊆ s.videoFiles.toFinset := by
      intro y hy
      rw [List.mem_toFinset] at hy ⊢
      exact h4 y hy
    have hcard : s.videoFiles.toFinset.card ≤ done2.toFinset.card := by
      rw [List.toFinset_card_of_nodup hnodup, List.toFinset_card_of_nodup h3,
          h2, hlen]
    have heq := Finset.eq_of_subset_of_card_le hsub hcard
    rw [← List.mem_toFinset, ← heq, List.mem_toFinset] at hx
    exact hx
  · intro a hvf hpl
    unfold playRandomVideos
    rw [if_neg (show ¬s.videoFiles.isEmpty = true from fun h => by
      rw [hvf] at h; simp at h)]
    dsimp only
    have := playFold_single bad rnd a s.numVideos 0
      ({ s with lastPlayed := List.replicate s.numVideos none } : PoolState α)
      (by simpa using hvf) (by simp)
    rw [hpl, List.range_eq_range']
    simpa using this

/-- Witness for C8: on the two-slot sample (catalog `[0, 1]`, two slots)
the reshuffle assigns two distinct files, and on the one-file pool all
slots receive file `7`. -/
theorem c8_reshuffle_distinct_witness :
    (∃ done : List Nat,
      (playRandomVideos (fun _ => false) (fun _ => 0)
        twoSlotSample).lastPlayed = done.map some ∧
      done.length = twoSlotSample.numVideos ∧ done.Nodup ∧
      (∀ x ∈ done, x ∈ twoSlotSample.videoFiles) ∧
      (twoSlotSample.videoFiles.length = twoSlotSample.numVideos →
        ∀ x ∈ twoSlotSample.videoFiles, x ∈ done)) ∧
    (playRandomVideos (fun _ => false) (fun _ => 0) failSample).lastPlayed =
      List.replicate failSample.numVideos (some 7) :=
  ⟨(c8_reshuffle_distinct (fun _ => false) (fun _ => 0) twoSlotSample).1
      (by decide) (by decide) (by decide) (by decide),
   (c8_reshuffle_distinct (fun _ => false) (fun _ => 0) failSample).2 7
      (by decide) (by decide)⟩

/-!
### Length bookkeeping across the pool operations
-/

/-- The shrink loop, tracking player count, `numVideos`, catalog and
(conditionally) `lastPlayed` length only. -/
theorem removeLoop_lengths (value : Nat) :
    ∀ (j : Nat) (s : PoolState α), s.players.length = value + j →
    ((((List.range' value j).reverse).foldl removeSlot s).players.length
      = value) ∧
    ((((List.range' value j).reverse).foldl removeSlot s).numVideos
      = s.numVideos) ∧
    ((((List.range' value j).reverse).foldl removeSlot s).videoFiles
      = s.videoFiles) ∧
    (s.lastPlayed.length = value + j →
      (((List.range' value j).reverse).foldl removeSlot s).lastPlayed.length
        = value) := by
  intro j
  induction j with
  | zero =>
    intro s h1
    simp only [List.range'_zero, List.reverse_nil, List.foldl_nil]
    exact ⟨by omega, by trivial, by trivial, fun h => by omega⟩
  | succ j ih =>
    intro s h1
    rw [List.range'_1_concat, List.reverse_append, List.reverse_singleton,
        List.singleton_append, List.foldl_cons]
    have hps : (removeSlot s (value + j)).players.length = value + j := by
      unfold removeSlot
      simp only [List.length_eraseIdx]
      rw [if_pos (by omega)]
      omega
    obtain ⟨ha, hb, hc, hd⟩ := ih (removeSlot s (value + j)) hps
    refine ⟨ha, hb.trans rfl, hc.trans rfl, fun hlp => ?_⟩
    apply hd
    unfold removeSlot
    simp only [List.length_eraseIdx]
    rw [if_pos (by omega)]
    omega

/-- `change_num_videos` always leaves exactly `value` players and
`numVideos = value`, and preserves the last-played/player length match. -/
theorem changeNumVideos_lengths (bad : α → Bool) (rnd : Nat → Nat)
    (value : Nat) (s : PoolState α) :
    (changeNumVideos bad rnd value s).players.length = value ∧
    (changeNumVideos bad rnd value s).numVideos = value ∧
    (s.lastPlayed.length = s.players.length →
      (changeNumVideos bad rnd value s).lastPlayed.length = value) := by
  rcases Nat.lt_trichotomy s.players.length value with h | h | h
  · obtain ⟨tf, hf, hflen, hp, hi2, hc, hl, hn, hv⟩ :=
      resize_up_shape bad rnd value s h
    refine ⟨hp, hn, fun hwf => ?_⟩
    rw [hl]
    omega
  · rw [changeNumVideos_eq_self bad rnd value s h]
    exact ⟨by simpa using h, rfl, fun hwf => by simpa [hwf] using h⟩
  · have key := removeLoop_lengths value (s.players.length - value)
      ({ s with numVideos := value } : PoolState α) (by simp; omega)
    unfold changeNumVideos
    rw [if_neg (by omega), if_pos h]
    refine ⟨?_, ?_, fun hwf => ?_⟩
    · have hx : value + (s.players.length - value) = s.players.length := by
        omega
    -- lengths transported below
      rw [hx] at key
      exact key.1
    · have hx : value + (s.players.length - value) = s.players.length := by
        omega
      rw [hx] at key
      exact key.2.1
    · have hx : value + (s.players.length - value) = s.players.length := by
        omega
      rw [hx] at key
      exact key.2.2.2 (by simpa using hwf)

/-- `toggle_individual_mute` keeps the player count and leaves both
`numVideos` and `lastPlayed` untouched. -/
theorem toggleIndividualMute_lengths (i : Nat) (b : Bool) (s : PoolState α) :
    (toggleIndividualMute i b s).players.length = s.players.length ∧
    (toggleIndividualMute i b s).numVideos = s.numVideos ∧
    (toggleIndividualMute i b s).lastPlayed = s.lastPlayed := by
  unfold toggleIndividualMute
  dsimp only
  cases hp : s.players[i]? with
  | none => exact ⟨rfl, rfl, rfl⟩
  | some p => simp

/-- `play_random_videos` keeps the last-played/player length match on a
pool whose player count equals `numVideos`. -/
theorem playRandomVideos_wf (bad : α → Bool) (rnd : Nat → Nat)
    (s : PoolState α) (hsync : s.players.length = s.numVideos)
    (hwf : s.lastPlayed.length = s.players.length) :
    (playRandomVideos bad rnd s).lastPlayed.length =
      (playRandomVideos bad rnd s).players.length := by
  obtain ⟨-, -, -, -, -, hp, hlp⟩ := playRandomVideos_unchanged bad rnd s
  by_cases he : s.videoFiles.isEmpty = true
  · unfold playRandomVideos
    rw [if_pos he]
    rw [hwf]
  · have he' : s.videoFiles.isEmpty = false := by
      cases hx : s.videoFiles.isEmpty
      · rfl
      · exact absurd hx he
    rw [hlp he', hp, hsync]

/-- One poller step keeps the player count and `numVideos`. -/
theorem tickStep_sync (bad : α → Bool) (rnd : Nat → Nat → Nat)
    (acc : PoolState α) (i : Nat) :
    (tickStep bad rnd acc i).players.length = acc.players.length ∧
    (tickStep bad rnd acc i).numVideos = acc.numVideos := by
  unfold tickStep
  cases hp : acc.players[i]? with
  | none => exact ⟨rfl, rfl⟩
  | some p =>
    dsimp only
    cases p.state
    case ended =>
      obtain ⟨-, -, -, hn, -, -, -, hpl, -⟩ :=
        playRandomVideo_unchanged bad (rnd i 0) acc i
      exact ⟨hpl, hn⟩
    case error =>
      obtain ⟨-, -, -, hn, -, hpl, -⟩ := playRandomVideos_unchanged bad
        (rnd i) ({ acc with warnings := acc.warnings + 1 } : PoolState α)
      exact ⟨hpl, hn⟩
    all_goals exact ⟨rfl, rfl⟩

/-- One poller step keeps the last-played/player length match. -/
theorem tickStep_wf (bad : α → Bool) (rnd : Nat → Nat → Nat)
    (acc : PoolState α) (i : Nat)
    (hsync : acc.players.length = acc.numVideos)
    (hwf : acc.lastPlayed.length = acc.players.length) :
    (tickStep bad rnd acc i).lastPlayed.length =
      (tickStep bad rnd acc i).players.length := by
  unfold tickStep
  cases hp : acc.players[i]? with
  | none => exact hwf
  | some p =>
    dsimp only
    cases p.state
    case ended =>
      obtain ⟨-, -, -, -, -, -, -, hpl, hll⟩ :=
        playRandomVideo_unchanged bad (rnd i 0) acc i
      rw [hll, hpl, hwf]
    case error =>
      exact playRandomVideos_wf bad (rnd i)
        ({ acc with warnings := acc.warnings + 1 } : PoolState α) hsync hwf
    all_goals exact hwf

/-- A full poller pass keeps the player count, `numVideos` and the
last-played/player length match. -/
theorem foldTick_lengths (bad : α → Bool) (rnd : Nat → Nat → Nat)
    (l : List Nat) :
    ∀ (s : PoolState α),
    ((l.foldl (tickStep bad rnd) s).players.length = s.players.length ∧
     (l.foldl (tickStep bad rnd) s).numVideos = s.numVideos) ∧
    (s.players.length = s.numVideos →
     s.lastPlayed.length = s.players.length →
     (l.foldl (tickStep bad rnd) s).lastPlayed.length =
       (l.foldl (tickStep bad rnd) s).players.length) := by
  induction l with
  | nil => exact fun s => ⟨⟨rfl, rfl⟩, fun _ hwf => hwf⟩
  | cons x xs ih =>
    intro s
    rw [List.foldl_cons]
    obtain ⟨⟨ha, hb⟩, hwfp⟩ := ih (tickStep bad rnd s x)
    obtain ⟨hc, hd⟩ := tickStep_sync bad rnd s x
    refine ⟨⟨ha.trans hc, hb.trans hd⟩, fun hsync hwf => ?_⟩
    exact hwfp (by rw [hc, hd, hsync]) (tickStep_wf bad rnd s x hsync hwf)

/-- `play_pause` keeps the player count, `numVideos`, and the
last-played/player length match. -/
theorem playPause_lengths (bad : α → Bool) (rnd : Nat → Nat)
    (s : PoolState α) :
    ((playPause bad rnd s).players.length = s.players.length ∧
     (playPause bad rnd s).numVideos = s.numVideos) ∧
    (s.players.length = s.numVideos →
     s.lastPlayed.length = s.players.length →
     (playPause bad rnd s).lastPlayed.length =
       (playPause bad rnd s).players.length) := by
  unfold playPause
  by_cases h1 : s.players.any Player.isPlaying = true
  · simp only [h1, if_true]
    exact ⟨⟨by simp, by trivial⟩, fun _ hwf => by simpa using hwf⟩
  · simp only [h1, Bool.false_eq_true, if_false]
    by_cases h2 : s.players.all terminalState = true
    · simp only [h2, if_true]
      obtain ⟨-, -, -, hn, -, hp, -⟩ := playRandomVideos_unchanged bad rnd s
      exact ⟨⟨hp, hn⟩, fun hsync hwf => playRandomVideos_wf bad rnd s hsync hwf⟩
    · simp only [h2, Bool.false_eq_true, if_false]
      exact ⟨⟨by simp, by trivial⟩, fun _ hwf => by simpa using hwf⟩

/-- Every reachable state has exactly `numVideos` players. -/
theorem reachable_sync (bad : α → Bool) (s : PoolState α)
    (h : Reachable bad s) : s.players.length = s.numVideos := by
  induction h with
  | init => rfl
  | step t op hreach ih =>
    cases op with
    | load files rnd =>
      show (loadVideos bad rnd files t).players.length =
        (loadVideos bad rnd files t).numVideos
      unfold loadVideos
      by_cases he : files.isEmpty = true
      · simpa [he] using ih
      · simp only [he, Bool.false_eq_true, if_false]
        obtain ⟨-, -, -, hn, -, hp, -⟩ := playRandomVideos_unchanged bad rnd
          ({ t with videoFiles := files } : PoolState α)
        rw [hp, hn]
        simpa using ih
    | resize value rnd =>
      obtain ⟨ha, hb, -⟩ := changeNumVideos_lengths bad rnd value t
      show (changeNumVideos bad rnd value t).players.length =
        (changeNumVideos bad rnd value t).numVideos
      rw [ha, hb]
    | next rnd =>
      obtain ⟨-, -, -, hn, -, hp, -⟩ := playRandomVideos_unchanged bad rnd t
      show (playRandomVideos bad rnd t).players.length =
        (playRandomVideos bad rnd t).numVideos
      rw [hp, hn]
      exact ih
    | playpause rnd =>
      obtain ⟨⟨ha, hb⟩, -⟩ := playPause_lengths bad rnd t
      show (playPause bad rnd t).players.length =
        (playPause bad rnd t).numVideos
      rw [ha, hb]
      exact ih
    | tick rnd =>
      obtain ⟨⟨ha, hb⟩, -⟩ := foldTick_lengths bad rnd
        (List.range t.players.length) t
      show (updateUi bad rnd t).players.length = (updateUi bad rnd t).numVideos
      unfold updateUi
      rw [ha, hb]
      exact ih
    | mute i b =>
      obtain ⟨ha, hb, -⟩ := toggleIndividualMute_lengths i b t
      show (toggleIndividualMute i b t).players.length =
        (toggleIndividualMute i b t).numVideos
      rw [ha, hb]
      exact ih
    | stopOp =>
      show (stopAll t).players.length = (stopAll t).numVideos
      simpa [stopAll] using ih
    | setVol v =>
      show (setVolumeAll v t).players.length = (setVolumeAll v t).numVideos
      simpa [setVolumeAll, List.enum_length] using ih

/-!
### C9
-/

/-- C9 counterexample: resizing the pool from 1 to 3 slots before any
catalog is loaded is a reachable operation sequence after which the pool
has 3 players but only 2 last-played entries, so the claimed invariant
`len(lastAssigned) == len(slots)` does not hold after every resize. -/
theorem c9_counterexample_resize_before_load :
    Reachable (fun _ => false)
      (applyOp (fun _ => false) (Op.resize 3 (fun _ => 0)) (initState Nat)) ∧
    (applyOp (fun _ => false) (Op.resize 3 (fun _ => 0))
      (initState Nat)).players.length = 3 ∧
    (applyOp (fun _ => false) (Op.resize 3 (fun _ => 0))
      (initState Nat)).lastPlayed.length = 2 :=
  ⟨Reachable.step _ _ Reachable.init, by decide, by decide⟩

/-- C9 amended: in every reachable state, a successful assignment pass
(`play_random_videos` with a non-empty catalog) establishes
`len(lastPlayed) = len(players)`, and every pool operation — reshuffle,
resize up or down, play/pause, poller tick, mute toggle, stop, volume —
preserves that equality once it holds.  (The unamended claim fails only for
a resize performed before the first successful assignment pass, as the
counterexample shows.) -/
theorem c9_amended_invariant (bad : α → Bool) (s : PoolState α)
    (h : Reachable bad s) :
    (∀ rnd : Nat → Nat, s.videoFiles.isEmpty = false →
      (playRandomVideos bad rnd s).lastPlayed.length =
        (playRandomVideos bad rnd s).players.length) ∧
    (∀ op : Op α, s.lastPlayed.length = s.players.length →
      (applyOp bad op s).lastPlayed.length =
        (applyOp bad op s).players.length) := by
  have hsync := reachable_sync bad s h
  constructor
  · intro rnd he
    obtain ⟨-, -, -, -, -, hp, hlp⟩ := playRandomVideos_unchanged bad rnd s
    rw [hlp he, hp, hsync]
  · intro op hwf
    cases op with
    | load files rnd =>
      show (loadVideos bad rnd files s).lastPlayed.length =
        (loadVideos bad rnd files s).players.length
      unfold loadVideos
      by_cases he : files.isEmpty = true
      · simpa [he] using hwf
      · simp only [he, Bool.false_eq_true, if_false]
        exact playRandomVideos_wf bad rnd
          ({ s with videoFiles := files } : PoolState α) hsync hwf
    | resize value rnd =>
      obtain ⟨ha, -, hc⟩ := changeNumVideos_lengths bad rnd value s
      show (changeNumVideos bad rnd value s).lastPlayed.length =
        (changeNumVideos bad rnd value s).players.length
      rw [ha, hc hwf]
    | next rnd =>
      exact playRandomVideos_wf bad rnd s hsync hwf
    | playpause rnd =>
      exact (playPause_lengths bad rnd s).2 hsync hwf
    | tick rnd =>
      exact (foldTick_lengths bad rnd (List.range s.players.length) s).2
        hsync hwf
    | mute i b =>
      obtain ⟨ha, -, hc⟩ := toggleIndividualMute_lengths i b s
      show (toggleIndividualMute i b s).lastPlayed.length =
        (toggleIndividualMute i b s).players.length
      rw [ha, hc, hwf]
    | stopOp =>
      show (stopAll s).lastPlayed.length = (stopAll s).players.length
      simpa [stopAll] using hwf
    | setVol v =>
      show (setVolumeAll v s).lastPlayed.length =
        (setVolumeAll v s).players.length
      simpa [setVolumeAll, List.enum_length] using hwf

/-- Witness for the amended C9: load a one-file catalog (an assignment
pass), then resize to 3; the invariant holds afterwards. -/
theorem c9_amended_invariant_witness :
    (applyOp (fun _ => false) (Op.resize 3 (fun _ => 0))
      (applyOp (fun _ => false) (Op.load [5] (fun _ => 0))
        (initState Nat))).lastPlayed.length =
    (applyOp (fun _ => false) (Op.resize 3 (fun _ => 0))
      (applyOp (fun _ => false) (Op.load [5] (fun _ => 0))
        (initState Nat))).players.length :=
  (c9_amended_invariant (fun _ => false)
      (applyOp (fun _ => false) (Op.load [5] (fun _ => 0)) (initState Nat))
      (Reachable.step _ _ Reachable.init)).2
    (Op.resize 3 (fun _ => 0)) (by decide)

end ShuffleScreen
